import Mathlib

/-!
Verification of the ML-pipeline lecture repository (econ7035).

The notebooks delegate every operation to an external statistical library
(standard scaler, train/test split, pipeline, grid search with
cross-validation, pickle persistence).  The spec fixes the contracts of
those components; the definitions below embed them shallowly, faithful to
the spec's words and to the concrete configurations appearing in the
notebook cells (grid dictionaries, column transformer, 80/20 split).
Scores and features are rationals; the stored scale of a standardizing
stage (a square root in the library) is kept as a parameter constrained by
`scale ^ 2 = variance`.
-/

namespace MLPipe

/-- Learned parameters of a standardizing scaler stage: the stored mean and
the stored scale (standard deviation) computed at fit time. -/
structure ScalerParams where
  mean : ℚ
  scale : ℚ
deriving DecidableEq, Repr

/-- Modelled from the spec: the external standardizing stage's fit
statistic, the arithmetic mean of the training column. -/
def fitMean (xs : List ℚ) : ℚ := xs.sum / xs.length

/-- Modelled from the spec: the external standardizing stage's second fit
statistic, the population variance of the training column. -/
def fitVar (xs : List ℚ) : ℚ :=
  ((xs.map (fun x => (x - fitMean xs) ^ 2)).sum) / xs.length

/-- The parameters `p` are exactly those a standardizing stage stores after
a single `fit` on the column `xs`: mean is the column mean and the stored
scale squares to the column variance (the library stores the nonnegative
square root). -/
def IsFitOn (p : ScalerParams) (xs : List ℚ) : Prop :=
  p.mean = fitMean xs ∧ p.scale ^ 2 = fitVar xs ∧ 0 ≤ p.scale

instance (p : ScalerParams) (xs : List ℚ) : Decidable (IsFitOn p xs) := by
  unfold IsFitOn; infer_instance

/-- Standardize one value with previously learned parameters. -/
def transform1 (p : ScalerParams) (x : ℚ) : ℚ := (x - p.mean) / p.scale

/-- Modelled from the spec: the external stage's `transform` call.  It is a
pure state-passing operation: it returns the transformed data together with
the stage's (unchanged) stored parameters. -/
def transformCall (p : ScalerParams) (xs : List ℚ) : ScalerParams × List ℚ :=
  (p, xs.map (transform1 p))

/-- Modelled from the spec: the external train/test splitter's seeded
shuffle.  The spec fixes only determinism and the partition law, so the
seed-dependent permutation is modelled as a rotation by the seed. -/
def shuffleRows {α : Type} (seed : ℕ) (xs : List α) : List α :=
  xs.rotate seed

/-- Number of test rows for fraction `f` of `n` rows (ceiling, as the
external splitter computes it). -/
def testSize (f : ℚ) (n : ℕ) : ℕ := ⌈f * n⌉.toNat

/-- Modelled from the spec: the external `train_test_split`.  Deterministic
in the fraction and the seed: shuffle with the seed, take `testSize` rows
as Test and the rest as Train. -/
def trainTestSplit {α : Type} (f : ℚ) (seed : ℕ) (xs : List α) :
    List α × List α :=
  ((shuffleRows seed xs).drop (testSize f xs.length),
   (shuffleRows seed xs).take (testSize f xs.length))

/-- Sum of a list after dividing each element by a constant. -/
theorem sum_map_div (xs : List ℚ) (c : ℚ) :
    (xs.map (fun x => x / c)).sum = xs.sum / c := by
  induction xs with
  | nil => simp
  | cons a t ih => simp [ih, add_div]

/-- Sum of a list after subtracting a constant from each element. -/
theorem sum_map_sub (xs : List ℚ) (c : ℚ) :
    (xs.map (fun x => x - c)).sum = xs.sum - xs.length * c := by
  induction xs with
  | nil => simp
  | cons a t ih =>
    simp only [List.map_cons, List.sum_cons, ih, List.length_cons]
    push_cast
    ring

/-- The standardized column sums to zero. -/
theorem sum_transform (xs : List ℚ) (p : ScalerParams)
    (hm : p.mean = fitMean xs) (hn : xs ≠ []) :
    (xs.map (transform1 p)).sum = 0 := by
  have hlen : (xs.length : ℚ) ≠ 0 := by
    exact_mod_cast Nat.cast_ne_zero.mpr (List.length_pos.mpr hn).ne'
  have : (xs.map (transform1 p)) = (xs.map (fun x => x - p.mean)).map
      (fun x => x / p.scale) := by
    simp [transform1, Function.comp]
  rw [this, sum_map_div, sum_map_sub, hm, fitMean]
  field_simp

/-- The standardized column has mean zero. -/
theorem fitMean_transform (xs : List ℚ) (p : ScalerParams)
    (hm : p.mean = fitMean xs) (hn : xs ≠ []) :
    fitMean (xs.map (transform1 p)) = 0 := by
  unfold fitMean
  rw [sum_transform xs p hm hn]
  simp

/-- A scaler whose stored scale is nonzero was fit on a nonempty column. -/
theorem ne_nil_of_scale_ne_zero (xs : List ℚ) (p : ScalerParams)
    (hv : p.scale ^ 2 = fitVar xs) (hs : p.scale ≠ 0) : xs ≠ [] := by
  intro h0
  subst h0
  rw [fitVar] at hv
  simp at hv
  exact hs hv

/-- The standardized column has population variance one. -/
theorem fitVar_transform (xs : List ℚ) (p : ScalerParams)
    (h : IsFitOn p xs) (hs : p.scale ≠ 0) :
    fitVar (xs.map (transform1 p)) = 1 := by
  obtain ⟨hm, hv, -⟩ := h
  have hn : xs ≠ [] := ne_nil_of_scale_ne_zero xs p hv hs
  have hlen : (xs.length : ℚ) ≠ 0 := by
    exact_mod_cast Nat.cast_ne_zero.mpr (List.length_pos.mpr hn).ne'
  have hmz : fitMean (xs.map (transform1 p)) = 0 := fitMean_transform xs p hm hn
  have key : (xs.map ((fun z => z ^ 2) ∘ transform1 p)).sum
      = (xs.map (fun x => (x - p.mean) ^ 2)).sum / p.scale ^ 2 := by
    have h1 : ((fun z => z ^ 2) ∘ transform1 p)
        = fun x => ((x - p.mean) ^ 2) / p.scale ^ 2 := by
      funext x
      simp [transform1, div_pow]
    have h2 : (fun x => ((x - p.mean) ^ 2) / p.scale ^ 2)
        = (fun y => y / p.scale ^ 2) ∘ (fun x => (x - p.mean) ^ 2) := rfl
    rw [h1, h2, ← List.map_map, sum_map_div]
  have hvar : (xs.map (fun x => (x - p.mean) ^ 2)).sum / xs.length
      = p.scale ^ 2 := by
    rw [hm]
    exact hv.symm
  have hS : (xs.map (fun x => (x - p.mean) ^ 2)).sum
      = p.scale ^ 2 * xs.length := by
    rw [div_eq_iff hlen] at hvar
    exact hvar
  unfold fitVar
  rw [hmz]
  simp only [sub_zero, List.map_map, List.length_map]
  rw [key, hS]
  field_simp

/-- Test-row count never exceeds the row count when the fraction is at
most one. -/
theorem testSize_le (f : ℚ) (n : ℕ) (hf1 : f ≤ 1) : testSize f n ≤ n := by
  unfold testSize
  have hfn : f * n ≤ (n : ℚ) := by
    calc f * n ≤ 1 * n := mul_le_mul_of_nonneg_right hf1 (Nat.cast_nonneg n)
    _ = n := one_mul _
  have hceil : ⌈(f * n : ℚ)⌉ ≤ (n : ℤ) := Int.ceil_le.mpr (by exact_mod_cast hfn)
  exact Int.toNat_le.mpr hceil

/-- Train followed by Test is a permutation of the original rows. -/
theorem split_perm {α : Type} (f : ℚ) (s : ℕ) (xs : List α) :
    ((trainTestSplit f s xs).1 ++ (trainTestSplit f s xs).2).Perm xs := by
  unfold trainTestSplit shuffleRows
  have h1 : List.Perm
      (((xs.rotate s).drop (testSize f xs.length))
        ++ ((xs.rotate s).take (testSize f xs.length)))
      (((xs.rotate s).take (testSize f xs.length))
        ++ ((xs.rotate s).drop (testSize f xs.length))) :=
    List.perm_append_comm
  have h2 : ((xs.rotate s).take (testSize f xs.length))
      ++ ((xs.rotate s).drop (testSize f xs.length)) = xs.rotate s :=
    List.take_append_drop _ _
  exact (h2 ▸ h1).trans (List.rotate_perm xs s)

/-- On duplicate-free rows, Train and Test are disjoint. -/
theorem split_disjoint {α : Type} (f : ℚ) (s : ℕ) (xs : List α)
    (h : xs.Nodup) :
    (trainTestSplit f s xs).1.Disjoint (trainTestSplit f s xs).2 := by
  unfold trainTestSplit shuffleRows
  have hsh : (xs.rotate s).Nodup := ((xs.rotate_perm s).nodup_iff).mpr h
  exact (List.disjoint_take_drop hsh (le_refl _)).symm

/-- C1: a standardizing stage fit on the training partition only, when
subsequently asked to transform any test inputs t1 and t2, leaves its
stored learned parameters (mean and scale) equal to their post-fit values,
and its output is computed solely from those parameters and the input. -/
theorem scaler_transform_preserves_fit_params
    (train t1 t2 : List ℚ) (p : ScalerParams) (h : IsFitOn p train) :
    (transformCall p t1).1 = p ∧ (transformCall p t2).1 = p ∧
    (transformCall p t1).1 = (transformCall p t2).1 ∧
    (transformCall p t1).2 = t1.map (transform1 p) ∧
    (transformCall p t2).2 = t2.map (transform1 p) :=
  ⟨rfl, rfl, rfl, rfl, rfl⟩

/-- Witness for C1: scaler fit on [1, 3] (mean 2, variance 1), transforming
the test inputs [10, 20] and [5]. -/
theorem scaler_transform_preserves_fit_params_witness :
    (transformCall ⟨2, 1⟩ [10, 20]).1 = (⟨2, 1⟩ : ScalerParams) ∧
    (transformCall ⟨2, 1⟩ [5]).1 = (⟨2, 1⟩ : ScalerParams) ∧
    (transformCall ⟨2, 1⟩ [10, 20]).1 = (transformCall ⟨2, 1⟩ [5]).1 ∧
    (transformCall ⟨2, 1⟩ [10, 20]).2 = [10, 20].map (transform1 ⟨2, 1⟩) ∧
    (transformCall ⟨2, 1⟩ [5]).2 = [5].map (transform1 ⟨2, 1⟩) :=
  scaler_transform_preserves_fit_params [1, 3] [10, 20] [5] ⟨2, 1⟩
    (by refine ⟨?_, ?_, by norm_num⟩ <;> norm_num [fitMean, fitVar])

/-- C2: for every fraction in (0,1) and seed, the split is a deterministic
partition: two calls with the same arguments agree, Train ++ Test is a
permutation of the original rows, Test has exactly the requested number of
rows, and on duplicate-free data Train and Test are disjoint. -/
theorem trainTestSplit_deterministic_partition {α : Type} (f : ℚ) (s : ℕ)
    (xs : List α) (hf0 : 0 < f) (hf1 : f < 1) :
    trainTestSplit f s xs = trainTestSplit f s xs ∧
    ((trainTestSplit f s xs).1 ++ (trainTestSplit f s xs).2).Perm xs ∧
    (trainTestSplit f s xs).2.length = testSize f xs.length ∧
    (xs.Nodup → (trainTestSplit f s xs).1.Disjoint (trainTestSplit f s xs).2) := by
  refine ⟨rfl, split_perm f s xs, ?_, split_disjoint f s xs⟩
  have hle : testSize f xs.length ≤ (xs.rotate s).length := by
    rw [List.length_rotate]
    exact testSize_le f xs.length (le_of_lt hf1)
  unfold trainTestSplit shuffleRows
  simp only [List.length_take, List.length_rotate] at hle ⊢
  exact Nat.min_eq_left hle

/-- Witness for C2: fraction 1/2, seed 1, rows [0, 1, 2, 3]. -/
theorem trainTestSplit_deterministic_partition_witness :
    (0 : ℚ) < 1/2 ∧ (1 : ℚ)/2 < 1 ∧
    (trainTestSplit (1/2) 1 ([0, 1, 2, 3] : List ℕ)
        = trainTestSplit (1/2) 1 [0, 1, 2, 3] ∧
      ((trainTestSplit (1/2) 1 ([0, 1, 2, 3] : List ℕ)).1
        ++ (trainTestSplit (1/2) 1 [0, 1, 2, 3]).2).Perm [0, 1, 2, 3] ∧
      (trainTestSplit (1/2) 1 ([0, 1, 2, 3] : List ℕ)).2.length
        = testSize (1/2) [0, 1, 2, 3].length ∧
      (([0, 1, 2, 3] : List ℕ).Nodup →
        (trainTestSplit (1/2) 1 ([0, 1, 2, 3] : List ℕ)).1.Disjoint
          (trainTestSplit (1/2) 1 [0, 1, 2, 3]).2)) :=
  ⟨by norm_num, by norm_num,
    trainTestSplit_deterministic_partition (1/2) 1 [0, 1, 2, 3]
      (by norm_num) (by norm_num)⟩

/-- C9: transforming the training column right after fitting on it yields
mean exactly 0 and population variance exactly 1, and transforming test
data with the same fitted stage leaves the learned parameters unchanged. -/
theorem fit_transform_standardizes (xs t : List ℚ) (p : ScalerParams)
    (h : IsFitOn p xs) (hs : p.scale ≠ 0) :
    fitMean (xs.map (transform1 p)) = 0 ∧
    fitVar (xs.map (transform1 p)) = 1 ∧
    (transformCall p t).1 = p := by
  obtain ⟨hm, hv, hpos⟩ := h
  exact ⟨fitMean_transform xs p hm (ne_nil_of_scale_ne_zero xs p hv hs),
    fitVar_transform xs p ⟨hm, hv, hpos⟩ hs, rfl⟩

/-- Witness for C9: the column [1, 3] fits to mean 2 and scale 1; its
standardization has mean 0 and variance 1, and transforming the test
column [7] leaves the parameters unchanged. -/
theorem fit_transform_standardizes_witness :
    fitMean ([1, 3].map (transform1 ⟨2, 1⟩)) = 0 ∧
    fitVar ([1, 3].map (transform1 ⟨2, 1⟩)) = 1 ∧
    (transformCall ⟨2, 1⟩ [7]).1 = (⟨2, 1⟩ : ScalerParams) :=
  fit_transform_standardizes [1, 3] [7] ⟨2, 1⟩
    (by refine ⟨?_, ?_, by norm_num⟩ <;> norm_num [fitMean, fitVar])
    (by norm_num)

/-- A hyperparameter candidate value: an estimator object (named by its
class) or a numeric value, as in the notebook's grid dictionaries. -/
inductive HPVal where
  | est : String → HPVal
  | num : ℚ → HPVal
deriving DecidableEq, Repr

/-- One grid dictionary: stage-qualified parameter paths, each with its
finite candidate list. -/
abbrev ParamGrid := List (String × List HPVal)

/-- One configuration: a chosen value for every path of one dictionary. -/
abbrev Config := List (String × HPVal)

/-- Modelled from the spec: the search harness's enumeration of the
Cartesian product of the candidate lists of one grid dictionary. -/
def gridConfigs : ParamGrid → List Config
  | [] => [[]]
  | (k, vs) :: rest =>
    vs.flatMap (fun v => (gridConfigs rest).map (fun c => (k, v) :: c))

/-- All configurations of a list of grid dictionaries, in enumeration
order (dictionary by dictionary). -/
def allConfigs (gs : List ParamGrid) : List Config := gs.flatMap gridConfigs

/-- The product of the candidate-list sizes of one grid dictionary. -/
def gridSize (g : ParamGrid) : ℕ := (g.map (fun p => p.2.length)).prod

/-- The cross-validation trials the harness runs: each configuration is
fit once per fold. -/
def cvTrials (gs : List ParamGrid) (folds : ℕ) : List (Config × ℕ) :=
  (allConfigs gs).flatMap (fun c => (List.range folds).map (fun i => (c, i)))

/-- Summing a constant over a list multiplies it by the length. -/
theorem sum_map_const {α : Type} (l : List α) (n : ℕ) :
    (l.map (fun _ => n)).sum = l.length * n := by
  induction l with
  | nil => simp
  | cons a t ih => simp [ih, Nat.succ_mul, Nat.add_comm]

/-- One dictionary yields exactly the product of its candidate counts. -/
theorem gridConfigs_length (g : ParamGrid) :
    (gridConfigs g).length = gridSize g := by
  induction g with
  | nil => rfl
  | cons p rest ih =>
    obtain ⟨k, vs⟩ := p
    simp only [gridConfigs, gridSize, List.length_flatMap, Function.comp_def,
      List.length_map, List.map_cons, List.prod_cons]
    rw [sum_map_const vs (gridConfigs rest).length, ih]
    rfl

/-- A list of dictionaries yields the sum over dictionaries of the product
of candidate counts. -/
theorem allConfigs_length (gs : List ParamGrid) :
    (allConfigs gs).length = (gs.map gridSize).sum := by
  simp only [allConfigs, List.length_flatMap, Function.comp_def,
    gridConfigs_length]

/-- The number of cross-validation fits is the configuration count times
the fold count. -/
theorem cvTrials_length (gs : List ParamGrid) (folds : ℕ) :
    (cvTrials gs folds).length = (gs.map gridSize).sum * folds := by
  simp only [cvTrials, List.length_flatMap, Function.comp_def, List.length_map,
    List.length_range]
  rw [sum_map_const, allConfigs_length]

/-- C3: for every list of grid dictionaries, the harness evaluates exactly
the sum over dictionaries of the product of candidate-list sizes distinct
configurations, and performs that count times the fold count fit
operations during the cross-validation search. -/
theorem search_evaluates_product_of_grid_sizes
    (gs : List ParamGrid) (folds : ℕ) :
    (allConfigs gs).length = (gs.map gridSize).sum ∧
    (cvTrials gs folds).length = (gs.map gridSize).sum * folds :=
  ⟨allConfigs_length gs, cvTrials_length gs folds⟩

/-- The decision-tree grid dictionary of the ensemble notebook
(3 * 4 * 3 = 36 candidates). -/
def param1 : ParamGrid :=
  [("regressor", [.est "DecisionTreeRegressor"]),
   ("regressor__max_depth", [.num 3, .num 5, .num 7]),
   ("regressor__min_samples_leaf", [.num 10, .num 20, .num 30, .num 40]),
   ("regressor__max_features", [.num (1/2), .num (4/5), .num 1])]

/-- The random-forest grid dictionary of the ensemble notebook
(3 * 3 * 4 * 3 = 108 candidates). -/
def param2 : ParamGrid :=
  [("regressor", [.est "RandomForestRegressor"]),
   ("regressor__max_depth", [.num 3, .num 5, .num 7]),
   ("regressor__n_estimators", [.num 50, .num 100, .num 200]),
   ("regressor__max_samples", [.num (1/10), .num (1/2), .num (4/5), .num 1]),
   ("regressor__max_features", [.num (1/2), .num (4/5), .num 1])]

/-- The gradient-boosting grid dictionary of the ensemble notebook
(3 * 3 * 4 * 3 = 108 candidates). -/
def param3 : ParamGrid :=
  [("regressor", [.est "GradientBoostingRegressor"]),
   ("regressor__n_estimators", [.num 50, .num 100, .num 200]),
   ("regressor__learning_rate", [.num (1/10), .num 1, .num 10]),
   ("regressor__subsample", [.num (1/10), .num (1/2), .num (4/5), .num 1]),
   ("regressor__max_features", [.num (1/2), .num (4/5), .num 1])]

/-- The notebook's grid list: the three dictionaries wrapped in a list. -/
def params : List ParamGrid := [param1, param2, param3]

set_option maxRecDepth 4000 in
/-- With five folds, the notebook's grids train 252 configurations and
1260 cross-validated models, matching the cell that prints
the number of entries of the result table times 5. -/
theorem notebook_params_count :
    (allConfigs params).length = 252 ∧ (cvTrials params 5).length = 1260 := by
  constructor <;> rfl

/-- Strict comparison of cross-validation scores: a failed trial (`none`)
is the sentinel minimal score, below every successful mean score. -/
def svalLt : Option ℚ → Option ℚ → Bool
  | _, none => false
  | none, some _ => true
  | some a, some b => decide (a < b)

/-- The per-fold scores of one configuration: fitting on each fold's
complement and evaluating on the held-out fold may fail (`none`). -/
def foldScores (score : Config → ℕ → Option ℚ) (folds : ℕ) (c : Config) :
    List (Option ℚ) :=
  (List.range folds).map (score c)

/-- Modelled from the spec: a configuration's recorded score is the mean of
its fold scores, or the sentinel (`none`) when any fold's fit failed. -/
def configScore (score : Config → ℕ → Option ℚ) (folds : ℕ) (c : Config) :
    Option ℚ :=
  if (foldScores score folds c).all (fun o => o.isSome) then
    some (((foldScores score folds c).map (fun o => o.getD 0)).sum / folds)
  else none

/-- The harness's result table: every configuration, in enumeration order,
paired with its recorded cross-validation score. -/
def cvResults (score : Config → ℕ → Option ℚ) (folds : ℕ)
    (gs : List ParamGrid) : List (Config × Option ℚ) :=
  (allConfigs gs).map (fun c => (c, configScore score folds c))

/-- First-encountered maximum of a scored table: a later entry replaces the
current best only when its score is strictly greater. -/
def pickBest : List (Config × Option ℚ) → Option (Config × Option ℚ)
  | [] => none
  | x :: xs =>
    match pickBest xs with
    | none => some x
    | some y => if svalLt x.2 y.2 then some y else some x

/-- A model record: which configuration was fit, and on which data. -/
structure FitRecord where
  config : Config
  data : List ℚ
deriving DecidableEq, Repr

/-- Fitting a fresh pipeline with configuration `c` on training data. -/
def fitModel (c : Config) (train : List ℚ) : FitRecord := ⟨c, train⟩

/-- Outcome of a completed search: winning configuration, its mean
cross-validation score, and the refit final model. -/
structure SearchResult where
  bestConfig : Config
  bestScore : Option ℚ
  bestModel : FitRecord
deriving DecidableEq, Repr

/-- Modelled from the spec: the search harness.  It cross-validates every
configuration, picks the best-scoring one (first on ties) and refits it on
the entire training split. -/
def gridSearchFit (score : Config → ℕ → Option ℚ) (folds : ℕ)
    (gs : List ParamGrid) (train : List ℚ) : Option SearchResult :=
  match pickBest (cvResults score folds gs) with
  | none => none
  | some (c, sc) => some ⟨c, sc, fitModel c train⟩

/-- No score is strictly below itself. -/
theorem svalLt_irrefl (a : Option ℚ) : svalLt a a = false := by
  cases a <;> simp [svalLt]

/-- Strict score comparison is asymmetric. -/
theorem svalLt_asymm (a b : Option ℚ) (h : svalLt a b = true) :
    svalLt b a = false := by
  cases a <;> cases b <;> simp_all [svalLt]
  linarith

/-- Not-strictly-below is transitive. -/
theorem svalLt_not_lt_trans (a b c : Option ℚ) (h1 : svalLt a b = false)
    (h2 : svalLt b c = false) : svalLt a c = false := by
  cases a <;> cases b <;> cases c <;> simp_all [svalLt]
  linarith

/-- A nonempty table always has a picked entry. -/
theorem pickBest_cons_ne_none (x : Config × Option ℚ)
    (xs : List (Config × Option ℚ)) : pickBest (x :: xs) ≠ none := by
  unfold pickBest
  cases pickBest xs with
  | none => simp
  | some y => by_cases h : svalLt x.2 y.2 <;> simp [h]

/-- The picked entry is in the table, no entry scores strictly above it,
and every entry strictly before it scores strictly below it. -/
theorem pickBest_spec (l : List (Config × Option ℚ)) (b : Config × Option ℚ)
    (hb : pickBest l = some b) :
    (∃ l1 l2, l = l1 ++ b :: l2 ∧ ∀ y ∈ l1, svalLt y.2 b.2 = true) ∧
    (∀ y ∈ l, svalLt b.2 y.2 = false) := by
  induction l generalizing b with
  | nil => simp [pickBest] at hb
  | cons x xs ih =>
    unfold pickBest at hb
    cases hx : pickBest xs with
    | none =>
      have hxs : xs = [] := by
        cases xs with
        | nil => rfl
        | cons z zs => exact absurd hx (pickBest_cons_ne_none z zs)
      rw [hx] at hb
      simp only [Option.some.injEq] at hb
      subst hb
      subst hxs
      refine ⟨⟨[], [], by simp, by simp⟩, ?_⟩
      intro y hy
      rw [List.mem_singleton] at hy
      subst hy
      exact svalLt_irrefl _
    | some y =>
      rw [hx] at hb
      obtain ⟨⟨l1, l2, heq, hsm⟩, hmax⟩ := ih y hx
      by_cases hlt : svalLt x.2 y.2 = true
      · simp only [hlt, if_true, Option.some.injEq] at hb
        subst hb
        refine ⟨⟨x :: l1, l2, by rw [heq]; rfl, ?_⟩, ?_⟩
        · intro z hz
          rcases List.mem_cons.mp hz with hz | hz
          · subst hz; exact hlt
          · exact hsm z hz
        · intro z hz
          rcases List.mem_cons.mp hz with hz | hz
          · subst hz; exact svalLt_asymm _ _ hlt
          · exact hmax z hz
      · have hlt' : svalLt x.2 y.2 = false := Bool.eq_false_iff.mpr hlt
        simp only [hlt', Bool.false_eq_true, if_false, Option.some.injEq] at hb
        subst hb
        refine ⟨⟨[], xs, rfl, by simp⟩, ?_⟩
        intro z hz
        rcases List.mem_cons.mp hz with hz | hz
        · subst hz; exact svalLt_irrefl _
        · exact svalLt_not_lt_trans _ _ _ hlt' (hmax z hz)

/-- C5: the harness returns the configuration whose recorded mean
cross-validation score no other evaluated configuration strictly exceeds,
every configuration encountered earlier scores strictly lower (ties break
to first in enumeration order), and the returned model is the winning
configuration refit on the entire training split. -/
theorem gridSearch_selects_best (score : Config → ℕ → Option ℚ) (folds : ℕ)
    (gs : List ParamGrid) (train : List ℚ) (hne : allConfigs gs ≠ []) :
    ∃ c sc, gridSearchFit score folds gs train
        = some ⟨c, sc, fitModel c train⟩ ∧
      sc = configScore score folds c ∧
      (∀ y ∈ cvResults score folds gs, svalLt sc y.2 = false) ∧
      (∃ l1 l2, cvResults score folds gs = l1 ++ (c, sc) :: l2 ∧
        ∀ y ∈ l1, svalLt y.2 sc = true) := by
  obtain ⟨x, xs, hcv⟩ : ∃ x xs, cvResults score folds gs = x :: xs := by
    cases h : cvResults score folds gs with
    | nil =>
      exfalso
      apply hne
      unfold cvResults at h
      exact List.map_eq_nil_iff.mp h
    | cons x xs => exact ⟨x, xs, rfl⟩
  have hpb : pickBest (cvResults score folds gs) ≠ none := by
    rw [hcv]
    exact pickBest_cons_ne_none x xs
  obtain ⟨b, hb⟩ := Option.ne_none_iff_exists'.mp hpb
  obtain ⟨⟨l1, l2, heq, hfirst⟩, hmax⟩ := pickBest_spec _ b hb
  obtain ⟨bc, bsc⟩ := b
  refine ⟨bc, bsc, ?_, ?_, hmax, ⟨l1, l2, heq, hfirst⟩⟩
  · unfold gridSearchFit
    rw [hb]
  · have hbmem : (bc, bsc) ∈ cvResults score folds gs :=
      heq ▸ List.mem_append_right l1 (List.mem_cons_self _ l2)
    obtain ⟨c0, hc0, hpair⟩ := List.mem_map.mp hbmem
    have h1 : c0 = bc := congrArg Prod.fst hpair
    have h2 : configScore score folds c0 = bsc := congrArg Prod.snd hpair
    rw [← h2, h1]

/-- Witness for C5: a one-dictionary grid with two candidate alpha values,
five folds, a constant scoring function (so the tie breaks to the first
configuration) and training data [4, 8]. -/
theorem gridSearch_selects_best_witness :
    ∃ c sc, gridSearchFit (fun _ _ => some 1) 5
        [[("model__alpha", [HPVal.num 1, HPVal.num 2])]] [4, 8]
        = some ⟨c, sc, fitModel c [4, 8]⟩ ∧
      sc = configScore (fun _ _ => some 1) 5 c ∧
      (∀ y ∈ cvResults (fun _ _ => some 1) 5
          [[("model__alpha", [HPVal.num 1, HPVal.num 2])]],
        svalLt sc y.2 = false) ∧
      (∃ l1 l2, cvResults (fun _ _ => some 1) 5
          [[("model__alpha", [HPVal.num 1, HPVal.num 2])]]
          = l1 ++ (c, sc) :: l2 ∧ ∀ y ∈ l1, svalLt y.2 sc = true) :=
  gridSearch_selects_best (fun _ _ => some 1) 5
    [[("model__alpha", [HPVal.num 1, HPVal.num 2])]] [4, 8]
    (by simp [allConfigs, gridConfigs])

/-- The parameter paths the base pipeline's stages actually expose. -/
abbrev PipeSpec := List String

/-- Modelled from the spec: eager validation of a grid list against the
base pipeline — every dictionary must be nonempty and reference only
existing stage-qualified parameter paths. -/
def gridsValid (spec : PipeSpec) (gs : List ParamGrid) : Bool :=
  gs.all (fun g => !g.isEmpty && g.all (fun p => spec.contains p.1))

/-- Modelled from the spec: the full search entry point.  It validates the
grid list and the feature columns before any fitting work; the first
component counts the fit operations performed (cross-validation trials
plus the final refit). -/
def runSearch (spec : PipeSpec) (score : Config → ℕ → Option ℚ) (folds : ℕ)
    (gs : List ParamGrid) (trainCols testCols : List String)
    (train : List ℚ) : ℕ × Except String SearchResult :=
  if gridsValid spec gs = false then (0, Except.error "invalid parameter grid")
  else if trainCols ≠ testCols then
    (0, Except.error "mismatched feature columns")
  else
    match gridSearchFit score folds gs train with
    | none => (0, Except.error "empty grid list")
    | some r => ((cvTrials gs folds).length + 1, Except.ok r)

/-- C6: a grid list containing an unknown stage-qualified parameter path
(at any position) or an empty grid dictionary, or mismatched feature
columns, makes the harness report a configuration error with zero fit
operations performed. -/
theorem invalid_config_rejected_before_fitting
    (spec : PipeSpec) (score : Config → ℕ → Option ℚ) (folds : ℕ)
    (gs : List ParamGrid) (trainCols testCols : List String) (train : List ℚ)
    (hbad : (∃ g ∈ gs, g = [] ∨ ∃ p ∈ g, spec.contains p.1 = false) ∨
      trainCols ≠ testCols) :
    (runSearch spec score folds gs trainCols testCols train).1 = 0 ∧
    ∃ e, (runSearch spec score folds gs trainCols testCols train).2
      = Except.error e := by
  rcases hbad with ⟨g, hg, hbadg⟩ | hcols
  · have hval : gridsValid spec gs = false := by
      unfold gridsValid
      rw [List.all_eq_false]
      refine ⟨g, hg, ?_⟩
      rcases hbadg with rfl | ⟨p, hp, hnp⟩
      · simp
      · intro h
        rw [Bool.and_eq_true] at h
        rw [List.all_eq_true] at h
        have := h.2 p hp
        rw [hnp] at this
        exact Bool.false_ne_true this
    unfold runSearch
    rw [hval]
    simp
  · unfold runSearch
    by_cases hval : gridsValid spec gs = false
    · rw [hval]
      simp
    · have hval' : gridsValid spec gs = true := by
        cases h : gridsValid spec gs
        · exact absurd h hval
        · rfl
      rw [hval']
      simp [hcols]

/-- Witness for C6: the bad path `bogus` sits in the second grid
dictionary; the harness still performs zero fits and errors out. -/
theorem invalid_config_rejected_before_fitting_witness :
    (runSearch ["regressor__max_depth"] (fun _ _ => some 1) 5
      [[("regressor__max_depth", [HPVal.num 3])], [("bogus", [HPVal.num 1])]]
      ["date"] ["date"] [1, 2]).1 = 0 ∧
    ∃ e, (runSearch ["regressor__max_depth"] (fun _ _ => some 1) 5
      [[("regressor__max_depth", [HPVal.num 3])], [("bogus", [HPVal.num 1])]]
      ["date"] ["date"] [1, 2]).2 = Except.error e :=
  invalid_config_rejected_before_fitting _ _ 5 _ _ _ _
    (Or.inl ⟨[("bogus", [HPVal.num 1])], by simp,
      Or.inr ⟨("bogus", [HPVal.num 1]), by simp, by decide⟩⟩)

/-- C7: a numerical failure in one configuration's fold is recorded as the
sentinel minimal score for that configuration alone; every configuration
is still evaluated and the result table keeps its full length — the
search does not abort. -/
theorem failed_fit_recorded_not_aborting
    (score : Config → ℕ → Option ℚ) (folds : ℕ) (gs : List ParamGrid)
    (c : Config) (i : ℕ) (hc : c ∈ allConfigs gs) (hi : i < folds)
    (hfail : score c i = none) :
    configScore score folds c = none ∧
    (c, (none : Option ℚ)) ∈ cvResults score folds gs ∧
    (cvResults score folds gs).length = (allConfigs gs).length ∧
    (∀ c2 ∈ allConfigs gs,
      (c2, configScore score folds c2) ∈ cvResults score folds gs) ∧
    (∀ s, svalLt s none = false) := by
  have h1 : configScore score folds c = none := by
    unfold configScore
    have hmem : (none : Option ℚ) ∈ foldScores score folds c := by
      unfold foldScores
      exact List.mem_map.mpr ⟨i, List.mem_range.mpr hi, hfail⟩
    have hall : (foldScores score folds c).all (fun o => o.isSome) = false :=
      List.all_eq_false.mpr ⟨none, hmem, by simp⟩
    rw [hall]
    simp
  refine ⟨h1, ?_, List.length_map _ _, ?_, fun s => by cases s <;> rfl⟩
  · rw [← h1]
    exact List.mem_map.mpr ⟨c, hc, rfl⟩
  · intro c2 hc2
    exact List.mem_map.mpr ⟨c2, hc2, rfl⟩

/-- Witness for C7: a two-configuration grid whose first configuration
fails its only fold; it is recorded with the sentinel score and the table
still lists both configurations. -/
theorem failed_fit_recorded_not_aborting_witness :
    configScore
        (fun cfg _ => if cfg = [("a", HPVal.num 1)] then none else some 1)
        1 [("a", HPVal.num 1)] = none ∧
    ([("a", HPVal.num 1)], (none : Option ℚ)) ∈ cvResults
        (fun cfg _ => if cfg = [("a", HPVal.num 1)] then none else some 1)
        1 [[("a", [HPVal.num 1, HPVal.num 2])]] ∧
    (cvResults
        (fun cfg _ => if cfg = [("a", HPVal.num 1)] then none else some 1)
        1 [[("a", [HPVal.num 1, HPVal.num 2])]]).length
      = (allConfigs [[("a", [HPVal.num 1, HPVal.num 2])]]).length ∧
    (∀ c2 ∈ allConfigs [[("a", [HPVal.num 1, HPVal.num 2])]],
      (c2, configScore
        (fun cfg _ => if cfg = [("a", HPVal.num 1)] then none else some 1)
        1 c2) ∈ cvResults
          (fun cfg _ => if cfg = [("a", HPVal.num 1)] then none else some 1)
          1 [[("a", [HPVal.num 1, HPVal.num 2])]]) ∧
    (∀ s, svalLt s none = false) :=
  failed_fit_recorded_not_aborting _ 1 _ [("a", HPVal.num 1)] 0
    (by simp [allConfigs, gridConfigs]) (by decide) (by simp)

/-- One input row of the lecture pipeline: a temperature and a promotion
indicator. -/
structure Row where
  temperature : ℚ
  promotion : ℚ
deriving DecidableEq, Repr

/-- Modelled from the spec: the lecture pipeline's column transformer —
it standardizes the temperature column and passes promotion through
(remainder passthrough). -/
def preprocessRow (sp : ScalerParams) (r : Row) : Row :=
  ⟨transform1 sp r.temperature, r.promotion⟩

/-- The fit-time path of the pipeline: the rows transformed by the
preprocessor right after it was fit. -/
def fitTransformRows (sp : ScalerParams) (rows : List Row) : List Row :=
  rows.map (preprocessRow sp)

/-- Learned parameters of the terminal regressor of the lecture pipeline:
one coefficient per preprocessed feature plus an intercept. -/
structure RegParams where
  wTemp : ℚ
  wPromo : ℚ
  intercept : ℚ
deriving DecidableEq, Repr

/-- A fitted pipeline: the preprocessor's learned scaling parameters and
the terminal model's learned coefficients. -/
structure FittedPipeline where
  scaler : ScalerParams
  reg : RegParams
deriving DecidableEq, Repr

/-- Predict one row: preprocess, then apply the learned coefficients. -/
def predictRow (p : FittedPipeline) (r : Row) : ℚ :=
  p.reg.wTemp * (preprocessRow p.scaler r).temperature
    + p.reg.wPromo * (preprocessRow p.scaler r).promotion
    + p.reg.intercept

/-- Predict a batch of rows. -/
def predictAll (p : FittedPipeline) (rows : List Row) : List ℚ :=
  rows.map (predictRow p)

/-- Coefficient of determination of predictions against actual targets. -/
def r2Score (yTrue yPred : List ℚ) : ℚ :=
  1 - ((yTrue.zip yPred).map (fun q => (q.1 - q.2) ^ 2)).sum /
      ((yTrue.map (fun y => (y - fitMean yTrue) ^ 2)).sum)

/-- Score a fitted pipeline on data with known targets. -/
def scorePipe (p : FittedPipeline) (rows : List Row) (ys : List ℚ) : ℚ :=
  r2Score ys (predictAll p rows)

/-- Version tag written at the head of every serialized stream. -/
def versionTag : ℚ := 1

/-- Modelled from the spec: `save` — the complete state of every stage
(scaler parameters and model coefficients) serialized as one stream,
written in a single step. -/
def encodePipe (p : FittedPipeline) : List ℚ :=
  [versionTag, p.scaler.mean, p.scaler.scale,
   p.reg.wTemp, p.reg.wPromo, p.reg.intercept]

/-- Modelled from the spec: `load` — accepts only a stream of exactly the
expected shape and version; anything else is a fatal error (`none`). -/
def decodePipe : List ℚ → Option FittedPipeline
  | [v, m, s, w1, w2, b] =>
    if v = versionTag then some ⟨⟨m, s⟩, ⟨w1, w2, b⟩⟩ else none
  | _ => none

/-- Loading a saved pipeline restores it exactly. -/
theorem decode_encode (p : FittedPipeline) :
    decodePipe (encodePipe p) = some p := by
  simp [decodePipe, encodePipe]

/-- C4: loading the result of saving a fitted pipeline yields a pipeline
whose predict and score results on any input equal those of the original,
with no refit performed (the decoded pipeline is the saved one). -/
theorem persistence_round_trip (p : FittedPipeline) (r : Row)
    (rows : List Row) (ys : List ℚ) :
    ∃ q, decodePipe (encodePipe p) = some q ∧
      predictRow q r = predictRow p r ∧
      predictAll q rows = predictAll p rows ∧
      scorePipe q rows ys = scorePipe p rows ys :=
  ⟨p, decode_encode p, rfl, rfl, rfl⟩

/-- C8: save emits the complete stage state as one stream, and load
accepts a stream only when it is exactly the encoding of the pipeline it
returns — a corrupt or incompatible stream never silently yields a
usable-but-wrong pipeline, and nothing falls back to a default model. -/
theorem load_rejects_corrupt_streams :
    (∀ p, decodePipe (encodePipe p) = some p) ∧
    (∀ s q, decodePipe s = some q → s = encodePipe q) := by
  refine ⟨decode_encode, ?_⟩
  intro s q h
  unfold decodePipe at h
  split at h
  · split at h
    · next v m sc w1 w2 b hv =>
      injection h with h
      subst h
      simp [encodePipe, hv]
    · cases h
  · cases h

/-- Witness for C8: the stream saved from a concrete fitted pipeline is
the only stream load maps to that pipeline. -/
theorem load_rejects_corrupt_streams_witness :
    [versionTag, 0, 1, 2, 3, 4]
      = encodePipe ⟨⟨0, 1⟩, ⟨2, 3, 4⟩⟩ :=
  load_rejects_corrupt_streams.2 [versionTag, 0, 1, 2, 3, 4]
    ⟨⟨0, 1⟩, ⟨2, 3, 4⟩⟩ (by simp [decodePipe])

/-- C10: the preprocessor scales only the temperature column and passes
every promotion value through unchanged — during the fit-time transform of
the training rows and during predict-time transforms of any rows. -/
theorem promotion_passthrough (sp : ScalerParams) (train rows : List Row)
    (r : Row) :
    (fitTransformRows sp train).map Row.promotion
      = train.map Row.promotion ∧
    (rows.map (preprocessRow sp)).map Row.promotion
      = rows.map Row.promotion ∧
    (preprocessRow sp r).promotion = r.promotion := by
  refine ⟨?_, ?_, rfl⟩ <;>
    simp [fitTransformRows, preprocessRow, List.map_map, Function.comp_def]

end MLPipe
